import Mathlib

/-!
# Verification of the Ovis workflow subsystem

A shallow embedding of `ovis/workflow/engine.py` and `ovis/workflow/manager.py`.

Conventions of the embedding:
* Python/JSON values are modelled by the inductive type `JVal`; Python `dict`s
  with string keys are association lists (`JDict`) whose key order is the
  dict's insertion order, and `dinsert` models `d[k] = v` (replace in place,
  else append).
* `datetime.now()` is abstracted as a `Nat` parameter `now`; nothing proved
  here depends on distinct clock readings.
* Handlers are total Lean functions returning `Except String JVal`: a Python
  exception with message `e` is `Except.error e`, and `str(e)` is `e`.
  `_process_params` itself returns `Except String`, since its membership test
  `task_id in results` raises `TypeError` on an unhashable (truthy list or
  dict) `previous_result` value.
* The engine's `on_task_start` / `on_task_complete` / `on_task_fail` callbacks
  are modelled by an `Event` trace: an event is in the trace iff the
  corresponding callback, when registered, is invoked with those arguments.
* The manager's template and instance directories are association lists from
  file stem to parsed JSON content; reading a file that is absent is a `none`
  lookup.
* `from_dict` / `from_yaml` read each field at the type the Python class
  annotations give it (ids and names are strings, parameter blocks are dicts,
  task lists are lists); an entry of a different shape makes the conversion
  fail with `none`, modelling the exception paths.  `to_dict` only ever writes
  well-shaped data, so round trips are unaffected.
-/

namespace Ovis

/-- JSON-like values: the data moved through parameters, results and the
serialized workflow files. -/
inductive JVal where
  | null : JVal
  | bool : Bool → JVal
  | num : Int → JVal
  | str : String → JVal
  | arr : List JVal → JVal
  | obj : List (String × JVal) → JVal
deriving Repr

/-- A Python dict with string keys, in insertion order. -/
abbrev JDict := List (String × JVal)

/-- Dict lookup (`d.get(k)` / `k in d`): first entry with the given key. -/
def alookup {α : Type} : List (String × α) → String → Option α
  | [], _ => none
  | (k, v) :: rest, key => if k = key then some v else alookup rest key

/-- Dict assignment `d[k] = v`: replace the value in place if the key is
present, else append the new entry (CPython insertion-order semantics). -/
def dinsert : JDict → String → JVal → JDict
  | [], k, v => [(k, v)]
  | (k0, v0) :: rest, k, v =>
    if k0 = k then (k0, v) :: rest else (k0, v0) :: dinsert rest k v

/-- Python truthiness of a JSON value (`if params["previous_result"]:`). -/
def truthy : JVal → Bool
  | .null => false
  | .bool b => b
  | .num n => n != 0
  | .str s => s != ""
  | .arr l => !l.isEmpty
  | .obj l => !l.isEmpty

/-- Python `s.split(".")` on the characters after the `$`: cut at every dot,
keeping empty segments (so `""` splits to `[""]`, like Python). -/
def splitDotsAux : List Char → List Char → List String
  | [], cur => [String.mk cur.reverse]
  | c :: rest, cur =>
    if c = '.' then String.mk cur.reverse :: splitDotsAux rest []
    else splitDotsAux rest (c :: cur)

/-- Python `s.split(".")`. -/
def splitDots (s : String) : List String := splitDotsAux s.data []

/-- Combines `s.startswith("$")` with `s[1:]`: `some` of the rest of the
string when it starts with `$`, else `none`. -/
def dropDollar? (s : String) : Option String :=
  match s.data with
  | '$' :: rest => some (String.mk rest)
  | _ => none

/-- Models `if isinstance(task_id, str) and task_id.startswith("$"): task_id = task_id[1:]`
from `_process_params`: strip one leading `$` from a string, leave everything
else unchanged. -/
def stripDollar : JVal → JVal
  | .str s =>
    match dropDollar? s with
    | some t => .str t
    | none => .str s
  | v => v

/-- The nested-key walk of `_process_params` (engine.py lines 269-274):
`for part in parts[1:]: if isinstance(result, dict) and part in result:
result = result[part] else: result = None; break`. -/
def walkPath : JVal → List String → JVal
  | v, [] => v
  | v, part :: rest =>
    match v with
    | .obj entries =>
      match alookup entries part with
      | some v2 => walkPath v2 rest
      | none => .null
    | _ => .null

/-- Resolution of one ordinary (non-`previous_result`) parameter value
(engine.py lines 259-280): a string of the form `$taskId.k1.k2...` whose task
id is a key of `results` is replaced by the walked value; any other value is
copied unchanged. -/
def resolveValue (results : JDict) (v : JVal) : JVal :=
  match v with
  | .str s =>
    match dropDollar? s with
    | some body =>
      match splitDots body with
      | [] => .str s
      | taskId :: parts =>
        match alookup results taskId with
        | some r => walkPath r parts
        | none => .str s
    | none => .str s
  | other => other

/-- The `previous_result` block of `_process_params` (engine.py lines
246-254): when the `previous_result` parameter is present and truthy, its
(possibly `$`-stripped — strings only) value is tested with
`task_id in results`.  A string value produces the entry
`previous_result ↦ results[task_id]` when it names a key and nothing when it
does not; a hashable non-string (None, bool, number) is never a key of the
string-keyed accumulator, producing nothing; an unhashable value (list or
dict) makes the membership test raise `TypeError`, modelled as
`Except.error` carrying CPython's message. -/
def prevEntry (params results : JDict) : Except String JDict :=
  match alookup params "previous_result" with
  | some pv =>
    if truthy pv then
      match stripDollar pv with
      | .str tid =>
        match alookup results tid with
        | some r => .ok [("previous_result", r)]
        | none => .ok []
      | .arr _ => .error "unhashable type: \x27list\x27"
      | .obj _ => .error "unhashable type: \x27dict\x27"
      | _ => .ok []
    else .ok []
  | none => .ok []

/-- Model of `WorkflowEngine._process_params` (engine.py lines 241-282).  The
`previous_result` block runs first and can raise `TypeError` (an unhashable
truthy `previous_result` value); otherwise its entry is emitted first, then
every other entry is copied with `resolveValue` applied, in the input
order. -/
def process_params (params results : JDict) : Except String JDict :=
  match prevEntry params results with
  | .error e => .error e
  | .ok prev =>
    .ok (prev
      ++ (params.filter (fun kv => kv.1 != "previous_result")).map
        (fun kv => (kv.1, resolveValue results kv.2)))

/-- The `Task` class (engine.py lines 22-34): id, handler type, parameter
dict, description, and the mutable run state.  Statuses are the strings
`"pending"`, `"running"`, `"completed"`, `"failed"`. -/
structure Task where
  id : String
  handler : String
  parameters : JDict
  description : String
  status : String
  result : Option JVal
  error : Option String
  start_time : Option Nat
  end_time : Option Nat

/-- Model of `Task.__init__`: fresh state is `pending` with empty result/error/times.
`parameters` defaults to `{}` when absent, and a missing or empty (falsy)
description becomes `f"{handler} 작업"`. -/
def Task.init (id handler : String) (parameters : Option JDict)
    (description : Option String) : Task :=
  { id := id
    handler := handler
    parameters := parameters.getD []
    description :=
      match description with
      | some d => if d = "" then handler ++ " 작업" else d
      | none => handler ++ " 작업"
    status := "pending"
    result := none
    error := none
    start_time := none
    end_time := none }

/-- Model of `Task.to_dict` (engine.py lines 36-44): the serialized fields, in source
order.  Note `result`, `error` and the timestamps are not serialized. -/
def Task.to_dict (t : Task) : JVal :=
  .obj [("id", .str t.id), ("handler", .str t.handler),
        ("parameters", .obj t.parameters), ("description", .str t.description),
        ("status", .str t.status)]

/-- Model of `Task.from_dict` (engine.py lines 46-54): `id` is required; `handler`
falls back to `type` then `""`; `parameters` falls back to `params` then
`{}`; `description` defaults to `""`.  The saved `status` key is ignored, so
a loaded task is freshly `pending`. -/
def Task.from_dict (data : JVal) : Option Task :=
  match data with
  | .obj d => do
    let id ←
      match alookup d "id" with
      | some (.str s) => some s
      | _ => none
    let handler ←
      match alookup d "handler" with
      | some (.str s) => some s
      | some _ => none
      | none =>
        match alookup d "type" with
        | some (.str s) => some s
        | some _ => none
        | none => some ""
    let parameters ←
      match alookup d "parameters" with
      | some (.obj p) => some p
      | some _ => none
      | none =>
        match alookup d "params" with
        | some (.obj p) => some p
        | some _ => none
        | none => some ([] : JDict)
    let description ←
      match alookup d "description" with
      | some (.str s) => some s
      | some _ => none
      | none => some ""
    some (Task.init id handler (some parameters) (some description))
  | _ => none

/-- Convert every element, failing if any conversion fails: the `for
task_data in data.get("tasks", []): workflow.add_task(...)` loops. -/
def mapTasks (f : JVal → Option Task) : List JVal → Option (List Task)
  | [] => some []
  | v :: rest => do
    let t ← f v
    let ts ← mapTasks f rest
    some (t :: ts)

/-- The `Workflow` class (engine.py lines 56-70). -/
structure Workflow where
  id : String
  name : String
  description : String
  tasks : List Task
  status : String
  result : Option JDict
  error : Option String
  current_task_index : Int
  created_at : Nat
  updated_at : Nat

/-- Model of `Workflow.__init__`: fresh state is `pending`, index `-1`, timestamps set
to the current time. -/
def Workflow.init (id name description : String) (tasks : List Task)
    (now : Nat) : Workflow :=
  { id := id, name := name, description := description, tasks := tasks
    status := "pending", result := none, error := none
    current_task_index := -1, created_at := now, updated_at := now }

/-- Model of `Workflow.to_dict` (engine.py lines 77-84): id, name, description and the
serialized task list.  The workflow status, result, error, index and
timestamps are not serialized. -/
def Workflow.to_dict (w : Workflow) : JVal :=
  .obj [("id", .str w.id), ("name", .str w.name),
        ("description", .str w.description),
        ("tasks", .arr (w.tasks.map Task.to_dict))]

/-- Model of `Workflow.from_dict` (engine.py lines 86-99): `id` and `name` are
required, `description` defaults to `""`, tasks come from
`Task.from_dict` on each element of the `tasks` list (default `[]`). -/
def Workflow.from_dict (data : JVal) (now : Nat) : Option Workflow :=
  match data with
  | .obj d => do
    let id ←
      match alookup d "id" with
      | some (.str s) => some s
      | _ => none
    let name ←
      match alookup d "name" with
      | some (.str s) => some s
      | _ => none
    let description ←
      match alookup d "description" with
      | some (.str s) => some s
      | some _ => none
      | none => some ""
    let taskVals ←
      match alookup d "tasks" with
      | some (.arr l) => some l
      | some _ => none
      | none => some ([] : List JVal)
    let tasks ← mapTasks Task.from_dict taskVals
    some { Workflow.init id name description tasks now with tasks := tasks }
  | _ => none

/-- One task entry of `Workflow.from_yaml` (engine.py lines 114-121):
`id` and `handler` are required (`task_data["id"]`, `task_data["handler"]`),
`parameters` defaults to `{}` and `description` to `""`. -/
def taskFromYaml (data : JVal) : Option Task :=
  match data with
  | .obj d => do
    let id ←
      match alookup d "id" with
      | some (.str s) => some s
      | _ => none
    let handler ←
      match alookup d "handler" with
      | some (.str s) => some s
      | _ => none
    let parameters ←
      match alookup d "parameters" with
      | some (.obj p) => some p
      | some _ => none
      | none => some ([] : JDict)
    let description ←
      match alookup d "description" with
      | some (.str s) => some s
      | some _ => none
      | none => some ""
    some (Task.init id handler (some parameters) (some description))
  | _ => none

/-- Model of `Workflow.from_yaml` (engine.py lines 101-123) applied to the parsed
content of the YAML file. -/
def Workflow.from_yaml (data : JVal) (now : Nat) : Option Workflow :=
  match data with
  | .obj d => do
    let id ←
      match alookup d "id" with
      | some (.str s) => some s
      | _ => none
    let name ←
      match alookup d "name" with
      | some (.str s) => some s
      | _ => none
    let description ←
      match alookup d "description" with
      | some (.str s) => some s
      | some _ => none
      | none => some ""
    let taskVals ←
      match alookup d "tasks" with
      | some (.arr l) => some l
      | some _ => none
      | none => some ([] : List JVal)
    let tasks ← mapTasks taskFromYaml taskVals
    some { Workflow.init id name description tasks now with tasks := tasks }
  | _ => none

/-- The engine environment: the registered task handlers
(`register_task_handler` fills `self.task_handlers`).  A handler receives the
processed parameter dict and either returns a result or raises with a
message. -/
structure Env where
  handlers : List (String × (JDict → Except String JVal))

/-- Callback invocations of one run: `on_task_start`, `on_task_complete` and
`on_task_fail` in invocation order. -/
inductive Event where
  | taskStart (id : String)
  | taskComplete (id : String) (result : JVal)
  | taskFail (id : String) (msg : String)

/-- The id the event's callback receives. -/
def Event.taskId : Event → String
  | .taskStart id => id
  | .taskComplete id _ => id
  | .taskFail id _ => id

/-- The `ValueError` message for an unregistered handler type
(engine.py line 206). -/
def noHandlerMsg (handler : String) : String :=
  "작업 타입 \x27" ++ handler ++ "\x27에 대한 핸들러가 없습니다."

/-- The cancellation error written to the workflow (engine.py line 168). -/
def cancelMsg : String := "사용자에 의해 취소됨"

/-- First half of `_execute_task` (engine.py lines 193-194): the task is
marked `running` and its start time recorded before anything else. -/
def startTask (t : Task) (now : Nat) : Task :=
  { t with status := "running", start_time := some now }

/-- Model of `WorkflowEngine._execute_task` (engine.py lines 191-239): mark the task
running, fire `on_task_start`, look up the handler (failing with a
`ValueError` when absent), resolve the parameters, run the handler, and
record completion or failure on the task before returning the result or
re-raising. -/
def execute_task (env : Env) (t : Task) (previous_results : JDict)
    (now : Nat) : Task × List Event × Except String JVal :=
  let t1 := startTask t now
  match alookup env.handlers t1.handler with
  | none =>
    let msg := noHandlerMsg t1.handler
    let t2 := { t1 with status := "failed", error := some msg, end_time := some now }
    (t2, [Event.taskStart t1.id, Event.taskFail t1.id msg], .error msg)
  | some handler =>
    match process_params t1.parameters previous_results with
    | .error e =>
      let t2 := { t1 with status := "failed", error := some e, end_time := some now }
      (t2, [Event.taskStart t1.id, Event.taskFail t1.id e], .error e)
    | .ok params =>
      match handler params with
      | .ok result =>
        let t2 := { t1 with
                    status := "completed"
                    result := some result
                    end_time := some now }
        (t2, [Event.taskStart t1.id, Event.taskComplete t1.id result],
         .ok result)
      | .error e =>
        let t2 := { t1 with status := "failed", error := some e, end_time := some now }
        (t2, [Event.taskStart t1.id, Event.taskFail t1.id e], .error e)

/-- How the loop of `execute_workflow` ended: the `for` ran to completion,
the cancellation check fired, or a task raised. -/
inductive LoopExit where
  | finished : LoopExit
  | cancelled : LoopExit
  | errored (msg : String) : LoopExit

/-- The `for i, task in enumerate(workflow.tasks)` loop of `execute_workflow`
(engine.py lines 163-175).  `cancel i` is the value the shared
`self.cancel_execution` flag reads at the check before task `i`.  Returns the
(partially) executed task list, the results accumulator, the callback trace,
how the loop exited and the final `current_task_index`. -/
def runLoop (env : Env) (cancel : Nat → Bool) (now : Nat) :
    List Task → Nat → JDict →
    List Task × JDict × List Event × LoopExit × Int
  | [], i, acc => ([], acc, [], .finished, (i : Int) - 1)
  | t :: rest, i, acc =>
    if cancel i then (t :: rest, acc, [], .cancelled, (i : Int) - 1)
    else
      match execute_task env t acc now with
      | (t2, evs, .ok r) =>
        let (rest2, acc2, evs2, ex, idx) :=
          runLoop env cancel now rest (i + 1) (dinsert acc t2.id r)
        (t2 :: rest2, acc2, evs ++ evs2, ex, idx)
      | (t2, evs, .error e) => (t2 :: rest, acc, evs, .errored e, (i : Int))

/-- Model of `WorkflowEngine.execute_workflow` (engine.py lines 151-189): run the
loop; on normal completion mark the workflow `completed` and store/return the
results; on cancellation mark it `failed` with `cancelMsg` but still return
the partial results normally; on a task exception mark it `failed` with the
message and re-raise (`Except.error`). -/
def execute_workflow (env : Env) (cancel : Nat → Bool) (now : Nat)
    (w : Workflow) : Workflow × List Event × Except String JDict :=
  let (tasks2, acc, evs, ex, idx) := runLoop env cancel now w.tasks 0 []
  match ex with
  | .finished =>
    ({ w with
       tasks := tasks2
       status := "completed"
       result := some acc
       current_task_index := idx }, evs, .ok acc)
  | .cancelled =>
    ({ w with
       tasks := tasks2
       status := "failed"
       error := some cancelMsg
       current_task_index := idx }, evs, .ok acc)
  | .errored e =>
    ({ w with
       tasks := tasks2
       status := "failed"
       error := some e
       current_task_index := idx }, evs, .error e)

/-- The manager's instance directory (`instances/<id>.json`), as a map from
file stem to parsed JSON content. -/
abbrev InstanceStore := JDict

/-- The manager's template directory (`templates/<id>.yaml`), as a map from
file stem to parsed YAML content. -/
abbrev TemplateStore := JDict

/-- Model of `WorkflowManager.save_workflow_instance` (manager.py lines 92-99): write
`workflow.to_dict()` to `instances/<workflow.id>.json`. -/
def save_workflow_instance (store : InstanceStore) (w : Workflow) :
    InstanceStore :=
  dinsert store w.id w.to_dict

/-- Model of `WorkflowManager.load_workflow_instance` (manager.py lines 101-115):
`None` when the file is absent or unparsable, else `Workflow.from_dict` of
its content. -/
def load_workflow_instance (store : InstanceStore) (workflow_id : String)
    (now : Nat) : Option Workflow :=
  match alookup store workflow_id with
  | none => none
  | some data => Workflow.from_dict data now

/-- Model of `WorkflowManager.create_workflow_from_template` (manager.py lines
73-90): error when no template file named `template_id` exists; otherwise
load it with `Workflow.from_yaml` (a parse failure raises too), replace the
loaded workflow's id by `f"{workflow.id}_{suffix}"` where `suffix` models
`uuid.uuid4().hex[:8]`, reset both timestamps to now, persist the instance,
and return it with the updated store. -/
def create_workflow_from_template (templates : TemplateStore)
    (store : InstanceStore) (template_id : String) (suffix : String)
    (now : Nat) : Except String (Workflow × InstanceStore) :=
  match alookup templates template_id with
  | none => .error ("템플릿을 찾을 수 없습니다: " ++ template_id)
  | some data =>
    match Workflow.from_yaml data now with
    | none => .error ("템플릿을 읽을 수 없습니다: " ++ template_id)
    | some w =>
      let w2 := { w with
                  id := w.id ++ "_" ++ suffix
                  created_at := now
                  updated_at := now }
      .ok (w2, save_workflow_instance store w2)

/-- Spec-side condition: `v` (after stripping a leading `$` when it is a
string) names a key of the dict `d`. -/
def isKeyOf (v : JVal) (d : JDict) : Bool :=
  match v with
  | .str s => (alookup d s).isSome
  | _ => false

/-- Spec-side condition of claim C9: the `previous_result` parameter is
present, non-empty (truthy), and its possibly `$`-stripped value is a key of
the accumulator. -/
def prevResolves (params results : JDict) : Bool :=
  match alookup params "previous_result" with
  | some pv => truthy pv && isKeyOf (stripDollar pv) results
  | none => false

/-- Spec-side condition: the `previous_result` parameter is present, truthy,
and (after `$`-stripping, which applies only to strings) an unhashable list
or dict, so the membership test of `_process_params` raises `TypeError`. -/
def prevRaises (params : JDict) : Bool :=
  match alookup params "previous_result" with
  | some pv =>
    truthy pv &&
      (match stripDollar pv with
       | .arr _ => true
       | .obj _ => true
       | _ => false)
  | none => false

/-- The handler registered for `t`'s handler type exists and never raises. -/
def handlerOk (env : Env) (t : Task) : Prop :=
  ∃ f, alookup env.handlers t.handler = some f ∧ ∀ p, ∃ r, f p = .ok r

/-- The successive values the `status` field of one task takes inside
`_execute_task`: its value on entry, after the initial
`task.status = "running"` assignment, and after the final assignment on the
success or failure path. -/
def taskStatusHistory (env : Env) (t : Task) (prev : JDict) (now : Nat) :
    List String :=
  [t.status, (startTask t now).status, (execute_task env t prev now).1.status]

/-- The task a round trip through `Task.to_dict` / `Task.from_dict`
produces: same id, handler and parameters, but run state reset to fresh. -/
def reloadTask (t : Task) : Task :=
  Task.init t.id t.handler (some t.parameters) (some t.description)

/-- A saved workflow instance task that had reached a terminal state. -/
def c1SavedTask : Task :=
  { id := "t1", handler := "h", parameters := [], description := "d",
    status := "completed", result := some (.str "r"), error := none,
    start_time := some 1, end_time := some 2 }

/-- A completed workflow holding `c1SavedTask`, to be saved and reloaded. -/
def c1SavedWorkflow : Workflow :=
  { id := "w1", name := "n", description := "", tasks := [c1SavedTask],
    status := "completed", result := some [("t1", .str "r")], error := none,
    current_task_index := 0, created_at := 0, updated_at := 0 }

/-- A template whose internal `id` field differs from its file stem. -/
def c7OtherTemplate : JVal := .obj [("id", .str "other"), ("name", .str "N")]

/-- A template store with one template whose internal id matches its stem. -/
def c7Templates : TemplateStore :=
  [("t", .obj [("id", .str "t"), ("name", .str "N")])]

/-- The workflow `c7Templates`'s only template parses to. -/
def c7W : Workflow := Workflow.init "t" "N" "" [] 5

/-- A sample engine environment: handler type `good` always succeeds with the
string `r`, handler type `bad` always raises `boom`. -/
def okEnv : Env :=
  ⟨[("good", fun _ => .ok (.str "r")), ("bad", fun _ => .error "boom")]⟩

/-- A fresh task using the always-succeeding handler. -/
def taskA : Task := Task.init "a" "good" none none

/-- A fresh task using the always-raising handler. -/
def taskB : Task := Task.init "b" "bad" none none

/-- A second fresh task using the always-succeeding handler. -/
def taskB2 : Task := Task.init "b" "good" none none

/-- A third fresh task using the always-succeeding handler. -/
def taskC : Task := Task.init "c" "good" none none

/-- A two-task workflow whose handlers all succeed. -/
def wOk : Workflow := Workflow.init "w" "n" "" [taskA, taskB2] 0

/-- A three-task workflow whose middle task's handler raises. -/
def wMix : Workflow := Workflow.init "w" "n" "" [taskA, taskB, taskC] 0

/-- Sample parameters with one ordinary key and a `previous_result` key. -/
def c9Params : JDict := [("a", .num 1), ("previous_result", .str "$t1")]

/-- Sample accumulator for the parameter-resolution sample. -/
def c9Results : JDict := [("t1", .str "v")]

/-- A task whose handler always succeeds but whose parameters carry a truthy
list-valued `previous_result`, so parameter resolution raises `TypeError`. -/
def taskP : Task :=
  Task.init "p" "good" (some [("previous_result", .arr [.num 1])]) none

/-- A one-task workflow whose only task is the poisoned `taskP`. -/
def wPoison : Workflow := Workflow.init "w" "n" "" [taskP] 0

/-- A two-task workflow: the poisoned `taskP` followed by the task whose
handler always raises `boom`. -/
def wPoisonFail : Workflow := Workflow.init "w" "n" "" [taskP, taskB] 0

theorem alookup_dinsert_self (d : JDict) (k : String) (v : JVal) :
    alookup (dinsert d k v) k = some v := by
  induction d with
  | nil => simp [dinsert, alookup]
  | cons kv rest ih =>
    obtain ⟨k0, v0⟩ := kv
    by_cases h : k0 = k
    · subst h
      simp [dinsert, alookup]
    · simp [dinsert, alookup, h, ih]

theorem alookup_dinsert_ne (d : JDict) (k k2 : String) (v : JVal)
    (h : k2 ≠ k) :
    alookup (dinsert d k v) k2 = alookup d k2 := by
  have h2 : k ≠ k2 := Ne.symm h
  induction d with
  | nil => simp [dinsert, alookup, h2]
  | cons kv rest ih =>
    obtain ⟨k0, v0⟩ := kv
    by_cases hk : k0 = k
    · subst hk
      simp [dinsert, alookup, h2]
    · simp [dinsert, alookup, hk, ih]

theorem keys_dinsert_of_not_mem (d : JDict) (k : String) (v : JVal)
    (h : k ∉ d.map Prod.fst) :
    (dinsert d k v).map Prod.fst = d.map Prod.fst ++ [k] := by
  induction d with
  | nil => simp [dinsert]
  | cons kv rest ih =>
    obtain ⟨k0, v0⟩ := kv
    simp only [List.map_cons, List.mem_cons] at h
    push_neg at h
    have h1 : k0 ≠ k := Ne.symm h.1
    simp [dinsert, h1, ih h.2]

theorem process_params_other_keys (params results : JDict) :
    ((params.filter (fun kv => kv.1 != "previous_result")).map
        (fun kv => (kv.1, resolveValue results kv.2))).map Prod.fst
      = (params.map Prod.fst).filter (fun k => k != "previous_result") := by
  induction params with
  | nil => rfl
  | cons kv rest ih =>
    cases h : (kv.1 != "previous_result") with
    | true => simp [List.filter_cons, h, ih]
    | false => simp [List.filter_cons, h, ih]

theorem prevEntry_of_raises (params results : JDict)
    (h : prevRaises params = true) :
    ∃ e, prevEntry params results = .error e := by
  unfold prevRaises at h
  cases h1 : alookup params "previous_result" with
  | none =>
    rw [h1] at h
    simp at h
  | some pv =>
    rw [h1] at h
    rw [Bool.and_eq_true] at h
    cases h4 : stripDollar pv with
    | arr l =>
      exact ⟨"unhashable type: \x27list\x27",
        by simp [prevEntry, h1, h.1, h4]⟩
    | obj l =>
      exact ⟨"unhashable type: \x27dict\x27",
        by simp [prevEntry, h1, h.1, h4]⟩
    | null =>
      rw [h4] at h
      simp at h
    | bool b =>
      rw [h4] at h
      simp at h
    | num n =>
      rw [h4] at h
      simp at h
    | str s =>
      rw [h4] at h
      simp at h

theorem prevEntry_of_not_raises (params results : JDict)
    (h : prevRaises params = false) :
    ∃ prev, prevEntry params results = .ok prev
      ∧ prev.map Prod.fst
        = (if prevResolves params results then ["previous_result"] else []) := by
  unfold prevRaises at h
  cases h1 : alookup params "previous_result" with
  | none =>
    refine ⟨[], ?_, ?_⟩ <;> simp [prevEntry, prevResolves, h1]
  | some pv =>
    rw [h1] at h
    have h' : (truthy pv &&
        (match stripDollar pv with
         | JVal.arr _ => true
         | JVal.obj _ => true
         | _ => false)) = false := h
    cases h2 : truthy pv with
    | false =>
      refine ⟨[], ?_, ?_⟩ <;> simp [prevEntry, prevResolves, h1, h2]
    | true =>
      rw [h2] at h'
      simp only [Bool.true_and] at h'
      cases h4 : stripDollar pv with
      | str tid =>
        cases h5 : alookup results tid with
        | some r =>
          refine ⟨[("previous_result", r)], ?_, ?_⟩ <;>
            simp [prevEntry, prevResolves, h1, h2, h4, h5, isKeyOf]
        | none =>
          refine ⟨[], ?_, ?_⟩ <;>
            simp [prevEntry, prevResolves, h1, h2, h4, h5, isKeyOf]
      | null =>
        refine ⟨[], ?_, ?_⟩ <;>
          simp [prevEntry, prevResolves, h1, h2, h4, isKeyOf]
      | bool b =>
        refine ⟨[], ?_, ?_⟩ <;>
          simp [prevEntry, prevResolves, h1, h2, h4, isKeyOf]
      | num n =>
        refine ⟨[], ?_, ?_⟩ <;>
          simp [prevEntry, prevResolves, h1, h2, h4, isKeyOf]
      | arr l =>
        rw [h4] at h'
        simp at h'
      | obj l =>
        rw [h4] at h'
        simp at h'

theorem process_params_ok_keys (params results : JDict)
    (h : prevRaises params = false) :
    ∃ out, process_params params results = .ok out
      ∧ out.map Prod.fst
        = (if prevResolves params results then ["previous_result"] else [])
          ++ (params.map Prod.fst).filter (fun k => k != "previous_result") := by
  obtain ⟨prev, hprev, hkeys⟩ := prevEntry_of_not_raises params results h
  refine ⟨prev ++ (params.filter (fun kv => kv.1 != "previous_result")).map
      (fun kv => (kv.1, resolveValue results kv.2)), ?_, ?_⟩
  · simp [process_params, hprev]
  · rw [List.map_append, hkeys, process_params_other_keys]

theorem execute_task_ok_spec (env : Env) (t : Task) (acc : JDict) (now : Nat)
    (h : handlerOk env t) (hp : prevRaises t.parameters = false) :
    ∃ r t2 evs, execute_task env t acc now = (t2, evs, .ok r)
      ∧ t2.id = t.id ∧ t2.status = "completed" ∧ t2.result = some r
      ∧ evs.map Event.taskId = [t.id, t.id] := by
  obtain ⟨f, hf, hok⟩ := h
  obtain ⟨pp, hpp, _⟩ := process_params_ok_keys t.parameters acc hp
  obtain ⟨r, hr⟩ := hok pp
  refine ⟨r,
    { startTask t now with
      status := "completed"
      result := some r
      end_time := some now },
    [Event.taskStart t.id, Event.taskComplete t.id r], ?_, rfl, rfl, rfl, rfl⟩
  simp [execute_task, startTask, hf, hpp, hr]

theorem execute_task_err_spec (env : Env) (t : Task) (acc : JDict) (now : Nat)
    (e : String)
    (h : ∃ f, alookup env.handlers t.handler = some f ∧ ∀ p, f p = .error e)
    (hp : prevRaises t.parameters = false) :
    ∃ t2 evs, execute_task env t acc now = (t2, evs, .error e)
      ∧ t2.id = t.id ∧ t2.status = "failed" ∧ t2.error = some e
      ∧ evs.map Event.taskId = [t.id, t.id] := by
  obtain ⟨f, hf, herr⟩ := h
  obtain ⟨pp, hpp, _⟩ := process_params_ok_keys t.parameters acc hp
  refine ⟨
    { startTask t now with
      status := "failed"
      error := some e
      end_time := some now },
    [Event.taskStart t.id, Event.taskFail t.id e], ?_, rfl, rfl, rfl, rfl⟩
  simp [execute_task, startTask, hf, hpp, herr]

theorem runLoop_ok_front (env : Env) (cancel : Nat → Bool) (now : Nat)
    (pre : List Task) :
    ∀ (rest : List Task) (i : Nat) (acc : JDict),
    (∀ t ∈ pre, handlerOk env t) →
    (∀ t ∈ pre, prevRaises t.parameters = false) →
    ((pre.map Task.id).Nodup) →
    (∀ t ∈ pre, t.id ∉ acc.map Prod.fst) →
    (∀ j, i ≤ j → j < i + pre.length → cancel j = false) →
    ∃ pre2 acc2 evs,
      runLoop env cancel now (pre ++ rest) i acc
        = (pre2 ++ (runLoop env cancel now rest (i + pre.length) acc2).1,
           (runLoop env cancel now rest (i + pre.length) acc2).2.1,
           evs ++ (runLoop env cancel now rest (i + pre.length) acc2).2.2.1,
           (runLoop env cancel now rest (i + pre.length) acc2).2.2.2.1,
           (runLoop env cancel now rest (i + pre.length) acc2).2.2.2.2)
      ∧ pre2.map Task.id = pre.map Task.id
      ∧ (∀ t2 ∈ pre2, t2.status = "completed"
          ∧ ∃ r, t2.result = some r ∧ alookup acc2 t2.id = some r)
      ∧ acc2.map Prod.fst = acc.map Prod.fst ++ pre.map Task.id
      ∧ (∀ k, k ∈ acc.map Prod.fst → alookup acc2 k = alookup acc k)
      ∧ (∀ ev ∈ evs, ev.taskId ∈ pre.map Task.id) := by
  induction pre with
  | nil =>
    intro rest i acc _ _ _ _ _
    exact ⟨[], acc, [], by simp, rfl, by simp, by simp, fun k _ => rfl, by simp⟩
  | cons t pre' ih =>
    intro rest i acc hok hpr hnd hfresh hc
    have hcancel : cancel i = false := hc i (Nat.le_refl i) (by simp)
    obtain ⟨r, t2, evs0, hE, hid, hst, hres, hevs⟩ :=
      execute_task_ok_spec env t acc now (hok t (by simp)) (hpr t (by simp))
    have hfreshHead : t.id ∉ acc.map Prod.fst := hfresh t (by simp)
    have hkeysIns : (dinsert acc t.id r).map Prod.fst
        = acc.map Prod.fst ++ [t.id] := keys_dinsert_of_not_mem _ _ _ hfreshHead
    have hnd2 : (Task.id t :: pre'.map Task.id).Nodup := by
      simpa only [List.map_cons] using hnd
    have hndCons := List.nodup_cons.mp hnd2
    have hok' : ∀ u ∈ pre', handlerOk env u := fun u hu => hok u (by simp [hu])
    have hpr' : ∀ u ∈ pre', prevRaises u.parameters = false :=
      fun u hu => hpr u (by simp [hu])
    have hfresh' : ∀ u ∈ pre', u.id ∉ (dinsert acc t.id r).map Prod.fst := by
      intro u hu
      rw [hkeysIns]
      simp only [List.mem_append, List.mem_singleton]
      push_neg
      refine ⟨hfresh u (by simp [hu]), ?_⟩
      intro hcontra
      exact hndCons.1 (hcontra ▸ (List.mem_map_of_mem Task.id hu))
    have hc' : ∀ j, i + 1 ≤ j → j < (i + 1) + pre'.length → cancel j = false :=
      fun j h1 h2 => hc j (by omega) (by simp; omega)
    obtain ⟨pre2', acc2, evs', hR, hids', hcomp', hkeys', hpres', hevs'⟩ :=
      ih rest (i + 1) (dinsert acc t.id r) hok' hpr' hndCons.2 hfresh' hc'
    have harith : i + (t :: pre').length = (i + 1) + pre'.length := by
      simp
      omega
    refine ⟨t2 :: pre2', acc2, evs0 ++ evs', ?_, ?_, ?_, ?_, ?_, ?_⟩
    · rw [List.cons_append]
      rw [show runLoop env cancel now (t :: (pre' ++ rest)) i acc
          = (let z := runLoop env cancel now (pre' ++ rest) (i + 1)
               (dinsert acc t2.id r)
             (t2 :: z.1, z.2.1, evs0 ++ z.2.2.1, z.2.2.2.1, z.2.2.2.2)) from by
        simp [runLoop, hcancel, hE]]
      rw [hid, hR, harith]
      simp [List.append_assoc]
    · simp [hids', hid]
    · intro u hu
      rcases List.mem_cons.mp hu with hu | hu
      · subst hu
        refine ⟨hst, r, hres, ?_⟩
        rw [hid]
        rw [hpres' t.id (by rw [hkeysIns]; simp)]
        exact alookup_dinsert_self acc t.id r
      · exact hcomp' u hu
    · rw [hkeys', hkeysIns]
      simp
    · intro k hk
      rw [hpres' k (by rw [hkeysIns]; simp [hk])]
      exact alookup_dinsert_ne acc t.id k r
        (fun hcontra => hfreshHead (hcontra ▸ hk))
    · intro ev hev
      rcases List.mem_append.mp hev with hev | hev
      · have hin : ev.taskId ∈ evs0.map Event.taskId :=
          List.mem_map_of_mem _ hev
        rw [hevs] at hin
        simp at hin
        simp [hin]
      · simp [List.mem_cons]
        right
        simpa using hevs' ev hev

theorem runLoop_tasks_shape (env : Env) (cancel : Nat → Bool) (now : Nat) :
    ∀ (tasks : List Task) (i : Nat) (acc : JDict),
    ∀ t2 ∈ (runLoop env cancel now tasks i acc).1,
      t2 ∈ tasks ∨ ∃ t ∈ tasks, ∃ prev, t2 = (execute_task env t prev now).1 := by
  intro tasks
  induction tasks with
  | nil =>
    intro i acc t2 ht2
    simp [runLoop] at ht2
  | cons t rest ih =>
    intro i acc t2 ht2
    by_cases hc : cancel i
    · left
      have hshape : (runLoop env cancel now (t :: rest) i acc).1 = t :: rest := by
        simp [runLoop, hc]
      rwa [hshape] at ht2
    · rcases hE : execute_task env t acc now with ⟨te, evs, res⟩
      cases res with
      | ok r =>
        have hshape : (runLoop env cancel now (t :: rest) i acc).1
            = te :: (runLoop env cancel now rest (i + 1)
                (dinsert acc te.id r)).1 := by
          simp [runLoop, hc, hE]
        rw [hshape] at ht2
        rcases List.mem_cons.mp ht2 with h1 | h1
        · right
          exact ⟨t, by simp, acc, by rw [h1, hE]⟩
        · rcases ih (i + 1) (dinsert acc te.id r) t2 h1 with
            h2 | ⟨u, hu, prev, hprev⟩
          · exact Or.inl (List.mem_cons_of_mem _ h2)
          · exact Or.inr ⟨u, List.mem_cons_of_mem _ hu, prev, hprev⟩
      | error e =>
        have hshape : (runLoop env cancel now (t :: rest) i acc).1
            = te :: rest := by
          simp [runLoop, hc, hE]
        rw [hshape] at ht2
        rcases List.mem_cons.mp ht2 with h1 | h1
        · right
          exact ⟨t, by simp, acc, by rw [h1, hE]⟩
        · exact Or.inl (List.mem_cons_of_mem _ h1)

theorem task_from_to_dict (t : Task) :
    Task.from_dict (Task.to_dict t) = some (reloadTask t) := rfl

theorem mapTasks_from_to_dict (ts : List Task) :
    mapTasks Task.from_dict (ts.map Task.to_dict)
      = some (ts.map reloadTask) := by
  induction ts with
  | nil => rfl
  | cons t rest ih => simp [mapTasks, task_from_to_dict, ih]

theorem workflow_from_to_dict (w : Workflow) (now : Nat) :
    Workflow.from_dict (Workflow.to_dict w) now
      = some (Workflow.init w.id w.name w.description
          (w.tasks.map reloadTask) now) := by
  simp [Workflow.from_dict, Workflow.to_dict, alookup, mapTasks_from_to_dict]
  rfl

/-- C1 (counterexample): saving a workflow whose only task is `completed`
with result `"r"` and loading it back yields a task whose status is
`"pending"` and whose result is `none`: terminal statuses and results are
not reproduced by the round trip, contrary to the claim. -/
theorem c1_terminal_state_lost :
    (load_workflow_instance (save_workflow_instance [] c1SavedWorkflow)
        "w1" 9).map
        (fun w2 => w2.tasks.map (fun t2 => (t2.status, t2.result)))
      = some [("pending", (none : Option JVal))]
    ∧ c1SavedTask.status = "completed"
    ∧ c1SavedTask.result = some (.str "r")
    ∧ ("pending" : String) ≠ "completed" :=
  ⟨rfl, rfl, rfl, by decide⟩

/-- C1 (amended): saving any workflow and loading it back under its id
yields a workflow with the same id, name and description whose task list has
the same task ids, handler types and parameters in the same order — but
every loaded task has status `"pending"` and result `none`, whatever state
it was saved in (statuses are serialized but ignored on load, results are
never serialized). -/
theorem c1_roundtrip_amended (store : InstanceStore) (w : Workflow)
    (now : Nat) :
    ∃ w2, load_workflow_instance (save_workflow_instance store w) w.id now
        = some w2
      ∧ w2.id = w.id ∧ w2.name = w.name ∧ w2.description = w.description
      ∧ w2.tasks.map Task.id = w.tasks.map Task.id
      ∧ w2.tasks.map Task.handler = w.tasks.map Task.handler
      ∧ w2.tasks.map Task.parameters = w.tasks.map Task.parameters
      ∧ (∀ t2 ∈ w2.tasks, t2.status = "pending" ∧ t2.result = none) := by
  have hload : load_workflow_instance (save_workflow_instance store w) w.id now
      = Workflow.from_dict (Workflow.to_dict w) now := by
    unfold load_workflow_instance save_workflow_instance
    rw [alookup_dinsert_self]
  refine ⟨Workflow.init w.id w.name w.description (w.tasks.map reloadTask) now,
    by rw [hload, workflow_from_to_dict], rfl, rfl, rfl, ?_, ?_, ?_, ?_⟩
  · show List.map Task.id (w.tasks.map reloadTask) = List.map Task.id w.tasks
    rw [List.map_map]
    rfl
  · show List.map Task.handler (w.tasks.map reloadTask)
      = List.map Task.handler w.tasks
    rw [List.map_map]
    rfl
  · show List.map Task.parameters (w.tasks.map reloadTask)
      = List.map Task.parameters w.tasks
    rw [List.map_map]
    rfl
  · intro t2 ht2
    have ht2 : t2 ∈ w.tasks.map reloadTask := ht2
    simp only [List.mem_map] at ht2
    obtain ⟨t, _, ht⟩ := ht2
    rw [← ht]
    exact ⟨rfl, rfl⟩

/-- C2: with accumulator `{"t1": {"text": "hello"}}`, parameter resolution
maps `"$t1.text"` to `"hello"`, maps `"$t1.missing"` to the null marker,
leaves `"$unknown.text"` unchanged, and maps the `previous_result` key with
value `"$t1"` to the entire prior result `{"text": "hello"}`. -/
theorem c2_param_resolution_examples :
    process_params [("k", .str "$t1.text")]
        [("t1", .obj [("text", .str "hello")])]
      = .ok [("k", .str "hello")]
    ∧ process_params [("k", .str "$t1.missing")]
        [("t1", .obj [("text", .str "hello")])]
      = .ok [("k", JVal.null)]
    ∧ process_params [("k", .str "$unknown.text")]
        [("t1", .obj [("text", .str "hello")])]
      = .ok [("k", .str "$unknown.text")]
    ∧ process_params [("previous_result", .str "$t1")]
        [("t1", .obj [("text", .str "hello")])]
      = .ok [("previous_result", .obj [("text", .str "hello")])] :=
  ⟨rfl, rfl, rfl, rfl⟩

/-- C3 (counterexample): the claim says that when the walked value is a
sequence and the segment is an in-range index, the walk indexes into the
sequence.  On `"$t1.a.0"` with `t1.a = ["x", "y"]` the code instead yields
the null marker, not the element `"x"`. -/
theorem c3_sequence_not_indexed :
    process_params [("k", .str "$t1.a.0")]
        [("t1", .obj [("a", .arr [.str "x", .str "y"])])]
      = .ok [("k", JVal.null)]
    ∧ JVal.null ≠ JVal.str "x" :=
  ⟨rfl, by simp⟩

/-- C3 (amended): the path walk of parameter resolution handles only keyed
mappings: when the task id is a key of the accumulator the reference
resolves to the walk of the remaining segments, the walk descends into a
mapping exactly when the segment names a present key, and on any other
current value — sequences included, whatever the segment — the walked value
becomes the null marker and no further segments change it. -/
theorem c3_walk_mappings_only (results entries : JDict)
    (s body tid part : String) (rest ps : List String) (r c : JVal)
    (l : List JVal) :
    (dropDollar? s = some body → splitDots body = tid :: rest →
      alookup results tid = some r →
      resolveValue results (.str s) = walkPath r rest)
    ∧ (alookup entries part = some c →
      walkPath (.obj entries) (part :: ps) = walkPath c ps)
    ∧ (alookup entries part = none →
      walkPath (.obj entries) (part :: ps) = JVal.null)
    ∧ walkPath (.arr l) (part :: ps) = JVal.null
    ∧ walkPath JVal.null (part :: ps) = JVal.null := by
  refine ⟨?_, ?_, ?_, rfl, rfl⟩
  · intro h1 h2 h3
    simp [resolveValue, h1, h2, h3]
  · intro h
    simp [walkPath, h]
  · intro h
    simp [walkPath, h]

/-- Witness for C3 (amended) at concrete inputs. -/
theorem c3_walk_mappings_only_witness :
    (dropDollar? "$t1.a" = some "t1.a"
    ∧ splitDots "t1.a" = ["t1", "a"]
    ∧ alookup [("t1", JVal.obj [("a", JVal.str "v")])] "t1"
        = some (JVal.obj [("a", JVal.str "v")])
    ∧ alookup [("a", JVal.str "v")] "a" = some (JVal.str "v")
    ∧ alookup ([] : JDict) "a" = none)
    ∧ resolveValue [("t1", JVal.obj [("a", JVal.str "v")])] (.str "$t1.a")
        = walkPath (JVal.obj [("a", JVal.str "v")]) ["a"]
    ∧ walkPath (.obj [("a", JVal.str "v")]) ["a"] = walkPath (JVal.str "v") []
    ∧ walkPath (.obj ([] : JDict)) ["a"] = JVal.null
    ∧ walkPath (.arr [JVal.str "x"]) ["a"] = JVal.null
    ∧ walkPath JVal.null ["a"] = JVal.null := by
  have h := c3_walk_mappings_only [("t1", JVal.obj [("a", JVal.str "v")])]
    [("a", JVal.str "v")] "$t1.a" "t1.a" "t1" "a" ["a"] []
    (JVal.obj [("a", JVal.str "v")]) (JVal.str "v") [JVal.str "x"]
  have h0 := c3_walk_mappings_only [("t1", JVal.obj [("a", JVal.str "v")])]
    ([] : JDict) "$t1.a" "t1.a" "t1" "a" ["a"] []
    (JVal.obj [("a", JVal.str "v")]) (JVal.str "v") [JVal.str "x"]
  exact ⟨⟨rfl, rfl, rfl, rfl, rfl⟩, h.1 rfl rfl rfl, h.2.1 rfl,
    h0.2.2.1 rfl, h.2.2.2.1, h.2.2.2.2⟩

/-- C4 (counterexample): the claim's hypotheses say only that the handler of
task k fails and all earlier handlers succeed.  With task 1 carrying a
truthy list-valued `previous_result` parameter (its handler always
succeeds) and task 2's handler always raising `boom`, the program raises
`TypeError` at task 1: task 1 ends `failed` — not `completed` — and the
workflow's error is the `TypeError` message, not task 2's error. -/
theorem c4_earlier_params_raise :
    handlerOk okEnv taskP
    ∧ (∃ f, alookup okEnv.handlers taskB.handler = some f
        ∧ ∀ p, f p = .error "boom")
    ∧ (execute_workflow okEnv (fun _ => false) 0 wPoisonFail).1.tasks.map
        Task.status = ["failed", "pending"]
    ∧ (execute_workflow okEnv (fun _ => false) 0 wPoisonFail).1.error
        = some "unhashable type: \x27list\x27"
    ∧ ("failed" : String) ≠ "completed"
    ∧ ("unhashable type: \x27list\x27" : String) ≠ "boom" :=
  ⟨⟨_, rfl, fun p => ⟨.str "r", rfl⟩⟩, ⟨_, rfl, fun p => rfl⟩, rfl, rfl,
    by decide, by decide⟩

/-- C4 (amended): when the workflow splits as `pre ++ tk :: post` where
every handler of `pre` succeeds, `tk`'s handler always raises `e`, and no
task among `pre` and `tk` has a truthy list- or dict-valued
`previous_result` parameter (so parameter resolution raises no
`TypeError`), `execute_workflow` re-raises `e` to the caller, the workflow
ends `failed` with error `e`, the tasks of `pre` end `completed`, `tk` ends
`failed` with error `e`, and the tasks of `post` are returned untouched —
still `pending` and with no callback ever fired for them. -/
theorem c4_task_failure (env : Env) (now : Nat) (w : Workflow)
    (pre : List Task) (tk : Task) (post : List Task) (e : String)
    (hsplit : w.tasks = pre ++ tk :: post)
    (hids : (w.tasks.map Task.id).Nodup)
    (hpre : ∀ t ∈ pre, handlerOk env t)
    (hprep : ∀ t ∈ pre, prevRaises t.parameters = false)
    (hk : ∃ f, alookup env.handlers tk.handler = some f ∧ ∀ p, f p = .error e)
    (hkp : prevRaises tk.parameters = false)
    (hpost : ∀ t ∈ post, t.status = "pending") :
    (execute_workflow env (fun _ => false) now w).2.2 = .error e
    ∧ (execute_workflow env (fun _ => false) now w).1.status = "failed"
    ∧ (execute_workflow env (fun _ => false) now w).1.error = some e
    ∧ ∃ pre2 tk2,
        (execute_workflow env (fun _ => false) now w).1.tasks
          = pre2 ++ tk2 :: post
        ∧ pre2.map Task.id = pre.map Task.id
        ∧ (∀ t2 ∈ pre2, t2.status = "completed")
        ∧ tk2.id = tk.id ∧ tk2.status = "failed" ∧ tk2.error = some e
        ∧ (∀ t ∈ post, t.status = "pending")
        ∧ (∀ t ∈ post,
            ∀ ev ∈ (execute_workflow env (fun _ => false) now w).2.1,
            ev.taskId ≠ t.id) := by
  have hmap : (pre.map Task.id ++ (tk.id :: post.map Task.id)).Nodup := by
    have hx := hsplit ▸ hids
    simpa using hx
  obtain ⟨hndpre, hndrest, hdisj⟩ := List.nodup_append.mp hmap
  obtain ⟨pre2, acc2, evs, hR, hids2, hcomp, hkeys, hpres, hevs⟩ :=
    runLoop_ok_front env (fun _ => false) now pre (tk :: post) 0 []
      hpre hprep hndpre (by simp) (fun j _ _ => rfl)
  obtain ⟨tk2, evsk, hE, hkid, hkst, hkerr, hkevs⟩ :=
    execute_task_err_spec env tk acc2 now e hk hkp
  have hRest : runLoop env (fun _ => false) now (tk :: post)
      (0 + pre.length) acc2
      = (tk2 :: post, acc2, evsk, .errored e,
         ((0 + pre.length : Nat) : Int)) := by
    simp [runLoop, hE]
  rw [hRest] at hR
  have hEW : execute_workflow env (fun _ => false) now w
      = ({ w with
           tasks := pre2 ++ tk2 :: post
           status := "failed"
           error := some e
           current_task_index := ((0 + pre.length : Nat) : Int) },
         evs ++ evsk, .error e) := by
    simp [execute_workflow, hsplit, hR]
  rw [hEW]
  refine ⟨rfl, rfl, rfl, pre2, tk2, rfl, hids2,
    fun t2 ht2 => (hcomp t2 ht2).1, hkid, hkst, hkerr, hpost, ?_⟩
  intro t ht ev hev
  rcases List.mem_append.mp hev with hev | hev
  · have h1 : ev.taskId ∈ pre.map Task.id := hevs ev hev
    intro hcontra
    refine hdisj h1 ?_
    rw [hcontra]
    exact List.mem_cons_of_mem _ (List.mem_map_of_mem Task.id ht)
  · have h1 : ev.taskId ∈ evsk.map Event.taskId := List.mem_map_of_mem _ hev
    rw [hkevs] at h1
    simp at h1
    intro hcontra
    have h2 := (List.nodup_cons.mp hndrest).1
    apply h2
    rw [← h1, hcontra]
    exact List.mem_map_of_mem Task.id ht

/-- Witness for C4 at a concrete three-task workflow whose middle task's
handler raises `boom`. -/
theorem c4_task_failure_witness :
    (wMix.tasks = [taskA] ++ taskB :: [taskC]
    ∧ (wMix.tasks.map Task.id).Nodup
    ∧ (∀ t ∈ [taskA], handlerOk okEnv t)
    ∧ (∀ t ∈ [taskA], prevRaises t.parameters = false)
    ∧ (∃ f, alookup okEnv.handlers taskB.handler = some f
        ∧ ∀ p, f p = .error "boom")
    ∧ prevRaises taskB.parameters = false
    ∧ (∀ t ∈ [taskC], t.status = "pending"))
    ∧ ((execute_workflow okEnv (fun _ => false) 7 wMix).2.2 = .error "boom"
    ∧ (execute_workflow okEnv (fun _ => false) 7 wMix).1.status = "failed"
    ∧ (execute_workflow okEnv (fun _ => false) 7 wMix).1.error = some "boom"
    ∧ ∃ pre2 tk2,
        (execute_workflow okEnv (fun _ => false) 7 wMix).1.tasks
          = pre2 ++ tk2 :: [taskC]
        ∧ pre2.map Task.id = [taskA].map Task.id
        ∧ (∀ t2 ∈ pre2, t2.status = "completed")
        ∧ tk2.id = taskB.id ∧ tk2.status = "failed" ∧ tk2.error = some "boom"
        ∧ (∀ t ∈ [taskC], t.status = "pending")
        ∧ (∀ t ∈ [taskC],
            ∀ ev ∈ (execute_workflow okEnv (fun _ => false) 7 wMix).2.1,
            ev.taskId ≠ t.id)) := by
  have hnd : (wMix.tasks.map Task.id).Nodup := by
    have h : wMix.tasks.map Task.id = ["a", "b", "c"] := rfl
    rw [h]
    decide
  have hpre : ∀ t ∈ [taskA], handlerOk okEnv t := by
    intro t ht
    rcases List.mem_cons.mp ht with h | h
    · subst h
      exact ⟨_, rfl, fun p => ⟨.str "r", rfl⟩⟩
    · simp at h
  have hprep : ∀ t ∈ [taskA], prevRaises t.parameters = false := by
    intro t ht
    rcases List.mem_cons.mp ht with h | h
    · subst h
      rfl
    · simp at h
  have hk : ∃ f, alookup okEnv.handlers taskB.handler = some f
      ∧ ∀ p, f p = .error "boom" := ⟨_, rfl, fun p => rfl⟩
  have hpost : ∀ t ∈ [taskC], t.status = "pending" := by
    intro t ht
    rcases List.mem_cons.mp ht with h | h
    · subst h
      rfl
    · simp at h
  exact ⟨⟨rfl, hnd, hpre, hprep, hk, rfl, hpost⟩,
    c4_task_failure okEnv 7 wMix [taskA] taskB [taskC] "boom" rfl hnd hpre
      hprep hk rfl hpost⟩

/-- C5 (counterexample): the claim's hypotheses say only that cancellation
is raised before task i starts and that the earlier handlers succeed.  With
task 1 carrying a truthy list-valued `previous_result` parameter (its
handler always succeeds) and the flag first reading true at the check
before task 2, the program raises `TypeError` at task 1 and never reaches
the cancellation check: `execute_workflow` raises instead of returning
normally, and the workflow's error is the `TypeError` message, not the
cancellation marker. -/
theorem c5_earlier_params_raise :
    handlerOk okEnv taskP
    ∧ ((fun j => j == 1) 0 = false) ∧ ((fun j => j == 1) 1 = true)
    ∧ (execute_workflow okEnv (fun j => j == 1) 0 wPoisonFail).2.2
        = .error "unhashable type: \x27list\x27"
    ∧ (execute_workflow okEnv (fun j => j == 1) 0 wPoisonFail).2.2.toOption
        = none
    ∧ (execute_workflow okEnv (fun j => j == 1) 0 wPoisonFail).1.error
        = some "unhashable type: \x27list\x27"
    ∧ some ("unhashable type: \x27list\x27" : String) ≠ some cancelMsg :=
  ⟨⟨_, rfl, fun p => ⟨.str "r", rfl⟩⟩, rfl, rfl, rfl, rfl, rfl, by decide⟩

/-- C5 (amended): when the cancellation flag first reads true at the check
before task `i` (the head of `post`), the `pre` tasks' handlers all
succeed, and no `pre` task has a truthy list- or dict-valued
`previous_result` parameter (so parameter resolution raises no
`TypeError`), `execute_workflow` returns normally — no exception — with the
partial results holding exactly the results of the `pre` tasks; the
workflow ends `failed` with the cancellation marker, and the remaining
tasks are returned untouched, still `pending`, with no callback ever fired
for them. -/
theorem c5_cancellation (env : Env) (now : Nat) (w : Workflow)
    (cancel : Nat → Bool) (pre : List Task) (ti : Task) (post : List Task)
    (hsplit : w.tasks = pre ++ ti :: post)
    (hids : (w.tasks.map Task.id).Nodup)
    (hpre : ∀ t ∈ pre, handlerOk env t)
    (hprep : ∀ t ∈ pre, prevRaises t.parameters = false)
    (hcbefore : ∀ j, j < pre.length → cancel j = false)
    (hcat : cancel pre.length = true)
    (hpost : ∀ t ∈ ti :: post, t.status = "pending") :
    ∃ acc,
      (execute_workflow env cancel now w).2.2 = .ok acc
      ∧ acc.map Prod.fst = pre.map Task.id
      ∧ (execute_workflow env cancel now w).1.status = "failed"
      ∧ (execute_workflow env cancel now w).1.error = some cancelMsg
      ∧ ∃ pre2,
          (execute_workflow env cancel now w).1.tasks = pre2 ++ ti :: post
          ∧ pre2.map Task.id = pre.map Task.id
          ∧ (∀ t2 ∈ pre2, t2.status = "completed"
              ∧ ∃ r, t2.result = some r ∧ alookup acc t2.id = some r)
          ∧ (∀ t ∈ ti :: post, t.status = "pending")
          ∧ (∀ t ∈ ti :: post,
              ∀ ev ∈ (execute_workflow env cancel now w).2.1,
              ev.taskId ≠ t.id) := by
  have hmap : (pre.map Task.id ++ (ti.id :: post.map Task.id)).Nodup := by
    have hx := hsplit ▸ hids
    simpa using hx
  obtain ⟨hndpre, hndrest, hdisj⟩ := List.nodup_append.mp hmap
  obtain ⟨pre2, acc2, evs, hR, hids2, hcomp, hkeys, hpres, hevs⟩ :=
    runLoop_ok_front env cancel now pre (ti :: post) 0 []
      hpre hprep hndpre (by simp) (fun j _ hj => hcbefore j (by omega))
  have hcat0 : cancel (0 + pre.length) = true := by
    simpa using hcat
  have hRest : runLoop env cancel now (ti :: post) (0 + pre.length) acc2
      = (ti :: post, acc2, [], .cancelled,
         ((0 + pre.length : Nat) : Int) - 1) := by
    simp [runLoop, hcat0, hcat]
  rw [hRest] at hR
  have hEW : execute_workflow env cancel now w
      = ({ w with
           tasks := pre2 ++ ti :: post
           status := "failed"
           error := some cancelMsg
           current_task_index := ((0 + pre.length : Nat) : Int) - 1 },
         evs ++ [], .ok acc2) := by
    simp [execute_workflow, hsplit, hR]
  rw [hEW]
  refine ⟨acc2, rfl, by simpa using hkeys, rfl, rfl, pre2, rfl, hids2,
    hcomp, hpost, ?_⟩
  intro t ht ev hev
  rcases List.mem_append.mp hev with hev | hev
  · have h1 : ev.taskId ∈ pre.map Task.id := hevs ev hev
    intro hcontra
    refine hdisj h1 ?_
    rw [hcontra]
    simpa using List.mem_map_of_mem Task.id ht
  · simp at hev

/-- Witness for C5: the flag reads false at the check before task 0 and true
at the check before task 1 of a concrete three-task workflow. -/
theorem c5_cancellation_witness :
    (wMix.tasks = [taskA] ++ taskB :: [taskC]
    ∧ (wMix.tasks.map Task.id).Nodup
    ∧ (∀ t ∈ [taskA], handlerOk okEnv t)
    ∧ (∀ t ∈ [taskA], prevRaises t.parameters = false)
    ∧ (∀ j, j < [taskA].length → (fun j => j == 1) j = false)
    ∧ (fun j => j == 1) [taskA].length = true
    ∧ (∀ t ∈ taskB :: [taskC], t.status = "pending"))
    ∧ ∃ acc,
      (execute_workflow okEnv (fun j => j == 1) 7 wMix).2.2 = .ok acc
      ∧ acc.map Prod.fst = [taskA].map Task.id
      ∧ (execute_workflow okEnv (fun j => j == 1) 7 wMix).1.status = "failed"
      ∧ (execute_workflow okEnv (fun j => j == 1) 7 wMix).1.error
          = some cancelMsg
      ∧ ∃ pre2,
          (execute_workflow okEnv (fun j => j == 1) 7 wMix).1.tasks
            = pre2 ++ taskB :: [taskC]
          ∧ pre2.map Task.id = [taskA].map Task.id
          ∧ (∀ t2 ∈ pre2, t2.status = "completed"
              ∧ ∃ r, t2.result = some r ∧ alookup acc t2.id = some r)
          ∧ (∀ t ∈ taskB :: [taskC], t.status = "pending")
          ∧ (∀ t ∈ taskB :: [taskC],
              ∀ ev ∈ (execute_workflow okEnv (fun j => j == 1) 7 wMix).2.1,
              ev.taskId ≠ t.id) := by
  have hnd : (wMix.tasks.map Task.id).Nodup := by
    have h : wMix.tasks.map Task.id = ["a", "b", "c"] := rfl
    rw [h]
    decide
  have hpre : ∀ t ∈ [taskA], handlerOk okEnv t := by
    intro t ht
    rcases List.mem_cons.mp ht with h | h
    · subst h
      exact ⟨_, rfl, fun p => ⟨.str "r", rfl⟩⟩
    · simp at h
  have hprep : ∀ t ∈ [taskA], prevRaises t.parameters = false := by
    intro t ht
    rcases List.mem_cons.mp ht with h | h
    · subst h
      rfl
    · simp at h
  have hcb : ∀ j, j < [taskA].length → (fun j => j == 1) j = false := by
    intro j hj
    have hj1 : j < 1 := hj
    have hj0 : j = 0 := by omega
    subst hj0
    rfl
  have hpost : ∀ t ∈ taskB :: [taskC], t.status = "pending" := by
    intro t ht
    rcases List.mem_cons.mp ht with h | h
    · subst h
      rfl
    · rcases List.mem_cons.mp h with h | h
      · subst h
        rfl
      · simp at h
  exact ⟨⟨rfl, hnd, hpre, hprep, hcb, rfl, hpost⟩,
    c5_cancellation okEnv 7 wMix (fun j => j == 1) [taskA] taskB [taskC]
      rfl hnd hpre hprep hcb rfl hpost⟩

/-- C6 (counterexample): the claim's hypotheses say only that the task ids
are distinct and every handler succeeds.  A one-task workflow whose task
carries a truthy list-valued `previous_result` parameter and an
always-succeeding handler ends `failed` in the program — `_process_params`
raises `TypeError` inside `_execute_task`'s try block — contradicting the
all-completed conclusion. -/
theorem c6_params_raise_fails :
    handlerOk okEnv taskP
    ∧ (wPoison.tasks.map Task.id).Nodup
    ∧ (execute_workflow okEnv (fun _ => false) 0 wPoison).1.status = "failed"
    ∧ (execute_workflow okEnv (fun _ => false) 0 wPoison).1.tasks.map
        Task.status = ["failed"]
    ∧ (execute_workflow okEnv (fun _ => false) 0 wPoison).2.2
        = .error "unhashable type: \x27list\x27"
    ∧ ("failed" : String) ≠ "completed" :=
  ⟨⟨_, rfl, fun p => ⟨.str "r", rfl⟩⟩, by decide, rfl, rfl, rfl, by decide⟩

/-- C6 (amended): for a workflow with pairwise-distinct task ids whose
handlers all exist and always succeed, none of whose tasks has a truthy
list- or dict-valued `previous_result` parameter (so parameter resolution
raises no `TypeError`), and with no cancellation, every task ends
`completed`, the workflow ends `completed`, and the workflow result (also
the returned value) has exactly one entry per task, keyed by task id and
holding that task's handler result. -/
theorem c6_all_success (env : Env) (now : Nat) (w : Workflow)
    (hids : (w.tasks.map Task.id).Nodup)
    (hh : ∀ t ∈ w.tasks, handlerOk env t)
    (hp : ∀ t ∈ w.tasks, prevRaises t.parameters = false) :
    (execute_workflow env (fun _ => false) now w).1.status = "completed"
    ∧ (∀ t2 ∈ (execute_workflow env (fun _ => false) now w).1.tasks,
        t2.status = "completed")
    ∧ (execute_workflow env (fun _ => false) now w).1.tasks.map Task.id
        = w.tasks.map Task.id
    ∧ ∃ acc, (execute_workflow env (fun _ => false) now w).2.2 = .ok acc
        ∧ (execute_workflow env (fun _ => false) now w).1.result = some acc
        ∧ acc.map Prod.fst = w.tasks.map Task.id
        ∧ (∀ t2 ∈ (execute_workflow env (fun _ => false) now w).1.tasks,
            ∃ r, t2.result = some r ∧ alookup acc t2.id = some r) := by
  obtain ⟨pre2, acc2, evs, hR, hids2, hcomp, hkeys, _, _⟩ :=
    runLoop_ok_front env (fun _ => false) now w.tasks [] 0 []
      hh hp hids (by simp) (fun j _ _ => rfl)
  simp only [runLoop, List.append_nil] at hR
  have hEW : ∃ idx, execute_workflow env (fun _ => false) now w
      = ({ w with
           tasks := pre2
           status := "completed"
           result := some acc2
           current_task_index := idx }, evs, .ok acc2) := by
    refine ⟨((0 + w.tasks.length : Nat) : Int) - 1, ?_⟩
    simp [execute_workflow, hR]
  obtain ⟨idx, hEW⟩ := hEW
  rw [hEW]
  refine ⟨rfl, fun t2 ht2 => (hcomp t2 ht2).1, hids2, acc2, rfl, rfl, ?_,
    fun t2 ht2 => (hcomp t2 ht2).2⟩
  simpa using hkeys

/-- Witness for C6 at a concrete two-task workflow whose handlers always
succeed. -/
theorem c6_all_success_witness :
    ((wOk.tasks.map Task.id).Nodup ∧ (∀ t ∈ wOk.tasks, handlerOk okEnv t)
    ∧ (∀ t ∈ wOk.tasks, prevRaises t.parameters = false))
    ∧ ((execute_workflow okEnv (fun _ => false) 0 wOk).1.status = "completed"
    ∧ (∀ t2 ∈ (execute_workflow okEnv (fun _ => false) 0 wOk).1.tasks,
        t2.status = "completed")
    ∧ (execute_workflow okEnv (fun _ => false) 0 wOk).1.tasks.map Task.id
        = wOk.tasks.map Task.id
    ∧ ∃ acc, (execute_workflow okEnv (fun _ => false) 0 wOk).2.2 = .ok acc
        ∧ (execute_workflow okEnv (fun _ => false) 0 wOk).1.result = some acc
        ∧ acc.map Prod.fst = wOk.tasks.map Task.id
        ∧ (∀ t2 ∈ (execute_workflow okEnv (fun _ => false) 0 wOk).1.tasks,
            ∃ r, t2.result = some r ∧ alookup acc t2.id = some r)) := by
  have hnd : (wOk.tasks.map Task.id).Nodup := by
    have h : wOk.tasks.map Task.id = ["a", "b"] := rfl
    rw [h]
    decide
  have hh : ∀ t ∈ wOk.tasks, handlerOk okEnv t := by
    have hts : wOk.tasks = [taskA, taskB2] := rfl
    intro t ht
    rw [hts] at ht
    rcases List.mem_cons.mp ht with h | h
    · subst h
      exact ⟨_, rfl, fun p => ⟨.str "r", rfl⟩⟩
    · rcases List.mem_cons.mp h with h | h
      · subst h
        exact ⟨_, rfl, fun p => ⟨.str "r", rfl⟩⟩
      · simp at h
  have hp : ∀ t ∈ wOk.tasks, prevRaises t.parameters = false := by
    have hts : wOk.tasks = [taskA, taskB2] := rfl
    intro t ht
    rw [hts] at ht
    rcases List.mem_cons.mp ht with h | h
    · subst h
      rfl
    · rcases List.mem_cons.mp h with h | h
      · subst h
        rfl
      · simp at h
  exact ⟨⟨hnd, hh, hp⟩, c6_all_success okEnv 0 wOk hnd hh hp⟩

/-- C7 (counterexample): the claim says the new instance id equals the given
template id followed by an underscore and the random suffix.  For a template
stored under stem `t` whose internal `id` field is `other`, the code builds
the new id from the internal field: `other_abc12345`, not `t_abc12345`. -/
theorem c7_id_not_from_template_id :
    (create_workflow_from_template [("t", c7OtherTemplate)] [] "t"
        "abc12345" 0).toOption.map (fun p => p.1.id)
      = some "other_abc12345"
    ∧ ("other_abc12345" : String) ≠ "t_abc12345" :=
  ⟨rfl, by decide⟩

/-- C7 (amended): `create_workflow_from_template` raises when no template
file named by the template id exists; otherwise it returns a workflow whose
id is the template's internal id field followed by an underscore and the
random suffix (equal to the requested template id only when the file stem
and the internal id coincide), whose created/updated timestamps are reset
to now, and which is persisted under the new id before the call returns. -/
theorem c7_create_from_template_amended (templates : TemplateStore)
    (store : InstanceStore) (template_id suffix : String) (now : Nat) :
    (alookup templates template_id = none →
      create_workflow_from_template templates store template_id suffix now
        = .error ("템플릿을 찾을 수 없습니다: " ++ template_id))
    ∧ (∀ data w, alookup templates template_id = some data →
        Workflow.from_yaml data now = some w →
        ∃ w2 store2,
          create_workflow_from_template templates store template_id suffix now
            = .ok (w2, store2)
          ∧ w2.id = w.id ++ "_" ++ suffix
          ∧ w2.created_at = now ∧ w2.updated_at = now
          ∧ w2.tasks = w.tasks ∧ w2.name = w.name
          ∧ store2 = save_workflow_instance store w2
          ∧ alookup store2 w2.id = some w2.to_dict) := by
  constructor
  · intro h
    simp [create_workflow_from_template, h]
  · intro data w h1 h2
    refine ⟨{ w with
              id := w.id ++ "_" ++ suffix
              created_at := now
              updated_at := now },
      _, ?_, rfl, rfl, rfl, rfl, rfl, rfl, ?_⟩
    · simp [create_workflow_from_template, h1, h2]
    · exact alookup_dinsert_self store _ _

/-- Witness for C7 (amended): a missing template id errors, and a present
one produces the renamed, re-timestamped, persisted instance. -/
theorem c7_create_from_template_witness :
    (alookup c7Templates "x" = none
      ∧ create_workflow_from_template c7Templates [] "x" "s" 5
          = .error ("템플릿을 찾을 수 없습니다: " ++ "x"))
    ∧ (alookup c7Templates "t"
          = some (.obj [("id", .str "t"), ("name", .str "N")])
      ∧ Workflow.from_yaml (.obj [("id", .str "t"), ("name", .str "N")]) 5
          = some c7W
      ∧ ∃ w2 store2,
          create_workflow_from_template c7Templates [] "t" "s" 5
            = .ok (w2, store2)
          ∧ w2.id = c7W.id ++ "_" ++ "s"
          ∧ w2.created_at = 5 ∧ w2.updated_at = 5
          ∧ w2.tasks = c7W.tasks ∧ w2.name = c7W.name
          ∧ store2 = save_workflow_instance [] w2
          ∧ alookup store2 w2.id = some w2.to_dict) :=
  ⟨⟨rfl, (c7_create_from_template_amended c7Templates [] "x" "s" 5).1 rfl⟩,
    rfl, rfl,
    (c7_create_from_template_amended c7Templates [] "t" "s" 5).2
      (.obj [("id", .str "t"), ("name", .str "N")]) c7W rfl rfl⟩

/-- C8: within one run, task statuses only move forward along
pending → running → completed or pending → running → failed.  Stated as:
the successive values the status field takes inside `_execute_task` from a
pending task form exactly one of those two chains, and every task object in
the final list of `execute_workflow` is either an untouched (still pending)
input task or the result of `_execute_task` on an input task — the engine
performs no other status writes. -/
theorem c8_status_monotone (env : Env) (cancel : Nat → Bool) (now : Nat)
    (w : Workflow) (h : ∀ t ∈ w.tasks, t.status = "pending") :
    (∀ t prev, t.status = "pending" →
      taskStatusHistory env t prev now = ["pending", "running", "completed"]
      ∨ taskStatusHistory env t prev now = ["pending", "running", "failed"])
    ∧ (∀ t2 ∈ (execute_workflow env cancel now w).1.tasks,
        (t2 ∈ w.tasks ∧ t2.status = "pending")
        ∨ ∃ t ∈ w.tasks, ∃ prev, t2 = (execute_task env t prev now).1) := by
  constructor
  · intro t prev hp
    cases hf : alookup env.handlers t.handler with
    | none =>
      right
      simp [taskStatusHistory, execute_task, startTask, hf, hp]
    | some f =>
      cases hpp : process_params t.parameters prev with
      | error e =>
        right
        simp [taskStatusHistory, execute_task, startTask, hf, hpp, hp]
      | ok pp =>
        cases hr : f pp with
        | ok r =>
          left
          simp [taskStatusHistory, execute_task, startTask, hf, hpp, hr, hp]
        | error e =>
          right
          simp [taskStatusHistory, execute_task, startTask, hf, hpp, hr, hp]
  · intro t2 ht2
    have hshape : (execute_workflow env cancel now w).1.tasks
        = (runLoop env cancel now w.tasks 0 []).1 := by
      rcases hR : runLoop env cancel now w.tasks 0 [] with
        ⟨tasks2, acc, evs, ex, idx⟩
      cases ex <;> simp [execute_workflow, hR]
    rw [hshape] at ht2
    rcases runLoop_tasks_shape env cancel now w.tasks 0 [] t2 ht2 with h1 | h1
    · exact Or.inl ⟨h1, h t2 h1⟩
    · exact Or.inr h1

/-- Witness for C8 at a concrete three-task workflow of pending tasks. -/
theorem c8_status_monotone_witness :
    (∀ t ∈ wMix.tasks, t.status = "pending")
    ∧ ((∀ t prev, t.status = "pending" →
        taskStatusHistory okEnv t prev 7 = ["pending", "running", "completed"]
        ∨ taskStatusHistory okEnv t prev 7 = ["pending", "running", "failed"])
    ∧ (∀ t2 ∈ (execute_workflow okEnv (fun _ => false) 7 wMix).1.tasks,
        (t2 ∈ wMix.tasks ∧ t2.status = "pending")
        ∨ ∃ t ∈ wMix.tasks, ∃ prev, t2 = (execute_task okEnv t prev 7).1)) := by
  have h : ∀ t ∈ wMix.tasks, t.status = "pending" := by
    have hts : wMix.tasks = [taskA, taskB, taskC] := rfl
    intro t ht
    rw [hts] at ht
    rcases List.mem_cons.mp ht with h1 | h1
    · subst h1
      rfl
    · rcases List.mem_cons.mp h1 with h1 | h1
      · subst h1
        rfl
      · rcases List.mem_cons.mp h1 with h1 | h1
        · subst h1
          rfl
        · simp at h1
  exact ⟨h, c8_status_monotone okEnv (fun _ => false) 7 wMix h⟩

/-- C9 (counterexample): the claim says parameter resolution never raises.
On `{"previous_result": [1]}` the membership test `task_id in results`
raises `TypeError: unhashable type: \x27list\x27` even against an empty
accumulator, so `_process_params` is not total. -/
theorem c9_unhashable_previous_result_raises :
    process_params [("previous_result", JVal.arr [.num 1])] ([] : JDict)
      = .error "unhashable type: \x27list\x27"
    ∧ (process_params [("previous_result", JVal.arr [.num 1])]
        ([] : JDict)).toOption = none :=
  ⟨rfl, rfl⟩

/-- C9 (amended): parameter resolution raises a `TypeError` exactly when the
`previous_result` parameter is present, truthy, and (after `$`-stripping,
which applies only to strings) an unhashable list or dict.  Otherwise it
returns a mapping whose keys are exactly the non-`previous_result` input
keys, in order and each exactly once, preceded by `previous_result` exactly
when that parameter is present, non-empty (truthy), and its possibly
`$`-stripped value is a key of the accumulator. -/
theorem c9_process_params_raise_or_shape (params results : JDict)
    (h : (params.map Prod.fst).Nodup) :
    (prevRaises params = true →
      ∃ e, process_params params results = .error e)
    ∧ (prevRaises params = false →
      ∃ out, process_params params results = .ok out
        ∧ out.map Prod.fst
          = (if prevResolves params results then ["previous_result"] else [])
            ++ (params.map Prod.fst).filter (fun k => k != "previous_result")
        ∧ (out.map Prod.fst).Nodup
        ∧ ("previous_result" ∈ out.map Prod.fst
            ↔ prevResolves params results = true)) := by
  constructor
  · intro hr
    obtain ⟨e, he⟩ := prevEntry_of_raises params results hr
    exact ⟨e, by simp [process_params, he]⟩
  · intro hr
    obtain ⟨out, hout, hkeys⟩ := process_params_ok_keys params results hr
    have hnotmem : "previous_result"
        ∉ (params.map Prod.fst).filter (fun k => k != "previous_result") := by
      simp
    have hfilter := h.filter (fun k => k != "previous_result")
    refine ⟨out, hout, hkeys, ?_, ?_⟩
    · rw [hkeys]
      cases hb : prevResolves params results
      · simpa using hfilter
      · simp only [if_pos, List.singleton_append, List.nodup_cons]
        exact ⟨by simp, hfilter⟩
    · rw [hkeys]
      cases hb : prevResolves params results
      · simp [hnotmem]
      · simp

/-- Witness for C9 (amended): a raising parameter dict and a returning one,
each at concrete inputs. -/
theorem c9_process_params_raise_or_shape_witness :
    ((([("previous_result", JVal.arr [.num 1])] : JDict).map Prod.fst).Nodup
    ∧ prevRaises [("previous_result", JVal.arr [.num 1])] = true
    ∧ (∃ e, process_params [("previous_result", JVal.arr [.num 1])] c9Results
        = .error e))
    ∧ ((c9Params.map Prod.fst).Nodup
    ∧ prevRaises c9Params = false
    ∧ (∃ out, process_params c9Params c9Results = .ok out
        ∧ out.map Prod.fst
          = (if prevResolves c9Params c9Results then ["previous_result"]
             else [])
            ++ (c9Params.map Prod.fst).filter (fun k => k != "previous_result")
        ∧ (out.map Prod.fst).Nodup
        ∧ ("previous_result" ∈ out.map Prod.fst
            ↔ prevResolves c9Params c9Results = true))) := by
  have h1 : (([("previous_result", JVal.arr [.num 1])] : JDict).map
      Prod.fst).Nodup := by
    have he : ([("previous_result", JVal.arr [.num 1])] : JDict).map Prod.fst
        = ["previous_result"] := rfl
    rw [he]
    decide
  have h2 : (c9Params.map Prod.fst).Nodup := by
    have he : c9Params.map Prod.fst = ["a", "previous_result"] := rfl
    rw [he]
    decide
  exact ⟨⟨h1, rfl,
      (c9_process_params_raise_or_shape
        [("previous_result", JVal.arr [.num 1])] c9Results h1).1 rfl⟩,
    h2, rfl,
    (c9_process_params_raise_or_shape c9Params c9Results h2).2 rfl⟩

/-- C10: when a task's handler type has no registered handler, the task
itself is marked `failed` with the `ValueError` message recorded in its
error field, its end timestamp is set, the `on_task_fail` callback is
invoked with the task id and the message (after `on_task_start`), and the
configuration error then propagates to the caller — exactly the shape of a
handler-raised failure. -/
theorem c10_missing_handler (env : Env) (t : Task) (prev : JDict) (now : Nat)
    (h : alookup env.handlers t.handler = none) :
    (execute_task env t prev now).1.status = "failed"
    ∧ (execute_task env t prev now).1.error = some (noHandlerMsg t.handler)
    ∧ (execute_task env t prev now).1.end_time = some now
    ∧ (execute_task env t prev now).2.1
        = [Event.taskStart t.id, Event.taskFail t.id (noHandlerMsg t.handler)]
    ∧ (execute_task env t prev now).2.2 = .error (noHandlerMsg t.handler) := by
  simp [execute_task, startTask, h]

/-- Witness for C10: an empty handler registry and a concrete task. -/
theorem c10_missing_handler_witness :
    alookup (Env.mk []).handlers (Task.init "t1" "h" none none).handler = none
    ∧ (execute_task ⟨[]⟩ (Task.init "t1" "h" none none) [] 3).1.status
        = "failed"
    ∧ (execute_task ⟨[]⟩ (Task.init "t1" "h" none none) [] 3).1.error
        = some (noHandlerMsg (Task.init "t1" "h" none none).handler)
    ∧ (execute_task ⟨[]⟩ (Task.init "t1" "h" none none) [] 3).1.end_time
        = some 3
    ∧ (execute_task ⟨[]⟩ (Task.init "t1" "h" none none) [] 3).2.1
        = [Event.taskStart (Task.init "t1" "h" none none).id,
           Event.taskFail (Task.init "t1" "h" none none).id
             (noHandlerMsg (Task.init "t1" "h" none none).handler)]
    ∧ (execute_task ⟨[]⟩ (Task.init "t1" "h" none none) [] 3).2.2
        = .error (noHandlerMsg (Task.init "t1" "h" none none).handler) :=
  ⟨rfl, c10_missing_handler ⟨[]⟩ (Task.init "t1" "h" none none) [] 3 rfl⟩

end Ovis
